/-
Verification of the loss functions in `algorithm/utils_loss.py`
(repository CLIG_FAPT_FATEL).

The file shallowly embeds the five loss classes — InfoNCE, InfoNCE2,
SupConLoss (supervised branch), ConLoss and PaPiLoss — over the real
numbers.  Tensors of shape [n, d] become functions `Fin n → Fin d → ℝ`,
`torch.cat` along the batch dimension becomes a `Sum`/product index type,
reductions become `Finset` sums, and `torch.max(_, dim=1)` becomes
`Finset.sup'` over the row.  Float results that are not real numbers
(the mean of an empty tensor, a division by an exactly zero mask sum)
are modelled as `none : Option ℝ`; python `raise ValueError` becomes
`Except.error`.
-/
import Mathlib

open scoped Classical

namespace InfoNCE

/-- `F.cosine_similarity` with pytorch's default epsilon 1e-8:
dot product divided by `max (‖x‖·‖y‖) 1e-8`. -/
noncomputable def cosSim {d : ℕ} (x y : Fin d → ℝ) : ℝ :=
  (∑ k, x k * y k) /
    max (Real.sqrt (∑ k, x k * x k) * Real.sqrt (∑ k, y k * y k)) 1e-8

/-- `z = torch.cat([z_i, z_j], dim=0)`: the 2n concatenated rows,
indexed by `Fin n ⊕ Fin n` (left block = `z_i`, right block = `z_j`). -/
def catz {n d : ℕ} (z_i z_j : Fin n → Fin d → ℝ) : Fin n ⊕ Fin n → Fin d → ℝ
  | Sum.inl k => z_i k
  | Sum.inr k => z_j k

/-- The [2n, 2n] pairwise cosine-similarity matrix (line 13). -/
noncomputable def similarity {n d : ℕ} (z_i z_j : Fin n → Fin d → ℝ)
    (a b : Fin n ⊕ Fin n) : ℝ :=
  cosSim (catz z_i z_j a) (catz z_i z_j b)

/-- `positives = torch.cat([sim_ij, sim_ji])` (lines 15-17): row `k` of the
left block is paired with row `k` of the right block and vice versa. -/
noncomputable def positives {n d : ℕ} (z_i z_j : Fin n → Fin d → ℝ) :
    Fin n ⊕ Fin n → ℝ
  | Sum.inl k => similarity z_i z_j (Sum.inl k) (Sum.inr k)
  | Sum.inr k => similarity z_i z_j (Sum.inr k) (Sum.inl k)

/-- Row sum of `mask * exp(similarity / t)` where `mask = ~eye` (lines 19-21). -/
noncomputable def denomSum {n d : ℕ} (t : ℝ) (z_i z_j : Fin n → Fin d → ℝ)
    (a : Fin n ⊕ Fin n) : ℝ :=
  ∑ b, (if b = a then (0 : ℝ) else 1) * Real.exp (similarity z_i z_j a b / t)

/-- `InfoNCE.forward` (lines 10-25): mean over the 2n rows of
`-log (exp (positive / t) / denominator)`. -/
noncomputable def forward {n d : ℕ} (t : ℝ) (z_i z_j : Fin n → Fin d → ℝ) : ℝ :=
  (∑ a, -Real.log (Real.exp (positives z_i z_j a / t) / denomSum t z_i z_j a)) /
    (2 * n)

end InfoNCE

namespace InfoNCE2

/-- `anchor_dot_contrast = (features @ features.T) / temperature` (line 53). -/
noncomputable def adc {n d : ℕ} (t : ℝ) (features : Fin n → Fin d → ℝ)
    (i j : Fin n) : ℝ :=
  (∑ k, features i k * features j k) / t

/-- `logits = anchor_dot_contrast - logits_max` (lines 55-56): per-row max
subtraction for numerical stability. -/
noncomputable def logits {n d : ℕ} (t : ℝ) (features : Fin n → Fin d → ℝ)
    (i j : Fin n) : ℝ :=
  adc t features i j - Finset.univ.sup' ⟨i, Finset.mem_univ i⟩ (adc t features i)

/-- `logits_mask = ones - eye` (line 60). -/
def logitsMaskE {n : ℕ} (i j : Fin n) : ℝ := if i = j then 0 else 1

/-- `positives_mask = mask * logits_mask` (line 61). -/
noncomputable def positivesMask {n : ℕ} (mask : Fin n → Fin n → ℝ) (i j : Fin n) : ℝ :=
  mask i j * logitsMaskE i j

/-- `num_positives_per_row = positives_mask.sum(1)` (line 63). -/
noncomputable def numPositives {n : ℕ} (mask : Fin n → Fin n → ℝ) (i : Fin n) : ℝ :=
  ∑ j, positivesMask mask i j

/-- `denominator` (line 65): row sum of `exp_logits * negatives_mask` plus
row sum of `exp_logits * positives_mask`, with `negatives_mask = 1 - mask`. -/
noncomputable def denominator {n d : ℕ} (t : ℝ) (features : Fin n → Fin d → ℝ)
    (mask : Fin n → Fin n → ℝ) (i : Fin n) : ℝ :=
  (∑ j, Real.exp (logits t features i j) * (1 - mask i j)) +
    ∑ j, Real.exp (logits t features i j) * positivesMask mask i j

/-- `log_probs = logits - log (denominator + 1e-12)` (line 66).  This is the
real value of the entry when `denominator + 1e-12` is positive; a negative
argument makes the float `log` NaN, which the guard of lines 68-69 (modelled
in `maskedLoss` below) turns into a `ValueError`. -/
noncomputable def logProbs {n d : ℕ} (t : ℝ) (features : Fin n → Fin d → ℝ)
    (mask : Fin n → Fin n → ℝ) (i j : Fin n) : ℝ :=
  logits t features i j - Real.log (denominator t features mask i + 1e-12)

/-- The per-row loss of lines 71-76 for a row kept by the
`num_positives_per_row > 0` filter: minus the positive-mask-weighted row sum
of log-probabilities divided by the number of positives, then multiplied by
the temperature when `scale_by_temperature` is set. -/
noncomputable def rowLoss {n d : ℕ} (t : ℝ) (scale : Bool)
    (features : Fin n → Fin d → ℝ) (mask : Fin n → Fin n → ℝ) (i : Fin n) : ℝ :=
  -((∑ j, logProbs t features mask i j * positivesMask mask i j) /
      numPositives mask i) * (if scale then t else 1)

/-- The rows kept by the boolean filter `num_positives_per_row > 0` (line 71). -/
noncomputable def posRows {n : ℕ} (mask : Fin n → Fin n → ℝ) : Finset (Fin n) :=
  Finset.univ.filter fun i => 0 < numPositives mask i

/-- Lines 71-77: mean of the per-row losses over the kept rows; the mean of an
empty selection is NaN in pytorch, modelled as `none`. -/
noncomputable def meanLoss {n d : ℕ} (t : ℝ) (scale : Bool)
    (features : Fin n → Fin d → ℝ) (mask : Fin n → Fin n → ℝ) : Option ℝ :=
  if h : (posRows mask).Nonempty then
    some ((∑ i ∈ posRows mask, rowLoss t scale features mask i) / (posRows mask).card)
  else none

/-- The default mask `torch.eye(batch_size)` (line 44). -/
def eyeMask (n : ℕ) : Fin n → Fin n → ℝ := fun i j => if i = j then 1 else 0

/-- The mask derived from labels (line 49): entry 1 iff the two labels agree. -/
def labelsMask {n : ℕ} (ls : List ℤ) (h : ls.length = n) : Fin n → Fin n → ℝ :=
  fun i j =>
    if ls.get ⟨i, lt_of_lt_of_eq i.isLt h.symm⟩ =
        ls.get ⟨j, lt_of_lt_of_eq j.isLt h.symm⟩ then 1 else 0

/-- Lines 53-78 given the resolved mask.  The NaN guard of lines 68-69
(`raise ValueError("Log_prob has nan!")`) fires exactly when some row's
`denominator + 1e-12` is negative — possible since `negatives_mask = 1 - mask`
may be negative — because the float `log` of a negative argument is NaN while
the `logits` entries are real; `log` of zero is `-inf`, which `isnan` does not
flag, so a denominator summing to exactly `-1e-12` (a float boundary event
whose downstream ±inf arithmetic has no real counterpart) lies outside this
real-number model.  Otherwise every `log_probs` entry is real and the loss is
the filtered mean of `meanLoss`. -/
noncomputable def maskedLoss {n d : ℕ} (t : ℝ) (scale : Bool)
    (features : Fin n → Fin d → ℝ) (mask : Fin n → Fin n → ℝ) :
    Except String (Option ℝ) :=
  if ∃ i, denominator t features mask i + 1e-12 < 0 then
    Except.error "Log_prob has nan!"
  else Except.ok (meanLoss t scale features mask)

/-- `InfoNCE2.forward` (lines 34-78).  Argument validation happens first
(lines 41-48), then the mask is fixed and the loss body runs. -/
noncomputable def forward {n d : ℕ} (t : ℝ) (scale : Bool)
    (features : Fin n → Fin d → ℝ) (labels : Option (List ℤ))
    (maskArg : Option (Fin n → Fin n → ℝ)) : Except String (Option ℝ) :=
  match labels, maskArg with
  | some _, some _ => Except.error "Cannot define both `labels` and `mask`"
  | none, none => maskedLoss t scale features (eyeMask n)
  | some ls, none =>
    if h : ls.length = n then maskedLoss t scale features (labelsMask ls h)
    else Except.error "Num of labels does not match num of features"
  | none, some m => maskedLoss t scale features m

end InfoNCE2

namespace SupConLoss

/-
`SupConLoss.forward` with `mask` supplied (the supervised / partial-label
branch, lines 93-127).  The feature tensor has `b + k` rows; the first `b`
rows (`features[:batch_size]`) are the anchors.  The MoCo queue branch
(`mask is None`, lines 128-147) is not used by any claim and is not
modelled here.
-/

/-- `anchor_dot_contrast = (features[:b] @ features.T) / temperature` (97-99). -/
noncomputable def adc {b k d : ℕ} (t : ℝ) (features : Fin (b + k) → Fin d → ℝ)
    (i : Fin b) (j : Fin (b + k)) : ℝ :=
  (∑ c, features (Fin.castAdd k i) c * features j c) / t

/-- `logits = anchor_dot_contrast - logits_max` (lines 101-102). -/
noncomputable def logits {b k d : ℕ} (t : ℝ) (features : Fin (b + k) → Fin d → ℝ)
    (i : Fin b) (j : Fin (b + k)) : ℝ :=
  adc t features i j -
    Finset.univ.sup' ⟨Fin.castAdd k i, Finset.mem_univ _⟩ (adc t features i)

/-- The self-contrast mask of lines 105-110: `scatter` writes a 0 at column
`i` of anchor row `i`. -/
def logitsMask {b k : ℕ} (i : Fin b) (j : Fin (b + k)) : ℝ :=
  if (j : ℕ) = (i : ℕ) then 0 else 1

/-- `mask.sum(1)` after the self-contrast exclusion of line 111. -/
noncomputable def maskSum {b k : ℕ} (mask : Fin b → Fin (b + k) → ℝ) (i : Fin b) : ℝ :=
  ∑ j, mask i j * logitsMask i j

/-- `log_prob = logits - log (exp_logits.sum(1) + 1e-12)` (lines 114-115). -/
noncomputable def logProb {b k d : ℕ} (t : ℝ) (features : Fin (b + k) → Fin d → ℝ)
    (i : Fin b) (j : Fin (b + k)) : ℝ :=
  logits t features i j -
    Real.log ((∑ q, Real.exp (logits t features i q) * logitsMask i q) + 1e-12)

/-- The per-anchor loss of lines 118-121:
`-(t / base_t) * (mask * log_prob).sum(1) / mask.sum(1)`. -/
noncomputable def perAnchorLoss {b k d : ℕ} (t bt : ℝ)
    (features : Fin (b + k) → Fin d → ℝ) (mask : Fin b → Fin (b + k) → ℝ)
    (i : Fin b) : ℝ :=
  -(t / bt) *
    ((∑ j, mask i j * logitsMask i j * logProb t features i j) / maskSum mask i)

/-- Lines 93-127.  The division of line 118 is unguarded: when some anchor's
mask-row sum is exactly zero the float result is non-finite, and so is the
final mean; likewise the mean over zero anchors.  Both are modelled as
`none`. -/
noncomputable def forward {b k d : ℕ} (t bt : ℝ)
    (features : Fin (b + k) → Fin d → ℝ) (mask : Fin b → Fin (b + k) → ℝ)
    (weights : Option (Fin b → ℝ)) : Option ℝ :=
  if b ≠ 0 ∧ ∀ i, maskSum mask i ≠ 0 then
    some ((match weights with
           | none => ∑ i, perAnchorLoss t bt features mask i
           | some w => ∑ i, perAnchorLoss t bt features mask i * w i) / b)
  else none

end SupConLoss

namespace ConLoss

/-- The index of a maximal entry of `f`, ties broken towards the smallest
index — the index returned by `tensor.max(1)` (line 177). -/
noncomputable def argmaxFin {c : ℕ} [NeZero c] (f : Fin c → ℝ) : Fin c :=
  (Finset.univ.filter fun j => ∀ k, f k ≤ f j).min' (by
    obtain ⟨j, -, hj⟩ := Finset.exists_max_image Finset.univ f
      ⟨⟨0, Nat.pos_of_ne_zero (NeZero.ne c)⟩, Finset.mem_univ _⟩
    exact ⟨j, Finset.mem_filter.mpr
      ⟨Finset.mem_univ _, fun k => hj k (Finset.mem_univ _)⟩⟩)

/-- `output_sm = F.softmax(outputs[0:batch_size], dim=1)` (line 175); the
classifier output tensor may carry `e` extra rows beyond the batch. -/
noncomputable def outputSm {n e c : ℕ} (outputs : Fin (n + e) → Fin c → ℝ)
    (i : Fin n) (j : Fin c) : ℝ :=
  Real.exp (outputs (Fin.castAdd e i) j) /
    ∑ m, Real.exp (outputs (Fin.castAdd e i) m)

/-- `_, target_predict = (output_sm_d * Y).max(1)` (line 177). -/
noncomputable def targetPredict {n e c : ℕ} [NeZero c]
    (outputs : Fin (n + e) → Fin c → ℝ) (Y : Fin n → Fin c → ℝ) (i : Fin n) :
    Fin c :=
  argmaxFin fun j => outputSm outputs i j * Y i j

/-- The per-class argmax of a confidence row — "the confidence-selected
label" of the round-trip property. -/
noncomputable def confSelected {n c : ℕ} [NeZero c]
    (confidence : Fin n → Fin c → ℝ) (i : Fin n) : Fin c :=
  argmaxFin (confidence i)

/-- Lines 214-217: `new_target = (Y * output_sm_d) / row_sum`, the refined
confidence target returned as the second output. -/
noncomputable def newTarget {n e c : ℕ} (outputs : Fin (n + e) → Fin c → ℝ)
    (Y : Fin n → Fin c → ℝ) : Fin n → Fin c → ℝ :=
  fun i j => Y i j * outputSm outputs i j / ∑ m, Y i m * outputSm outputs i m

/-- `ConLoss.forward` (lines 157-219).  Multi-view features `[n, v, d]` are
flattened by `torch.cat(torch.unbind(features, 1), 0)` into a `v·n` contrast
pool, indexed here by `Fin v × Fin n` (pair `(a, i)` = flat row `a·n + i`).
`index` is accepted but never read, exactly as in the source.  Returns
`(loss_con, new_target)`. -/
noncomputable def forward {n v c d e : ℕ} [NeZero c] (base_temperature : ℝ)
    (confidence : Fin n → Fin c → ℝ) (outputs : Fin (n + e) → Fin c → ℝ)
    (features : Fin n → Fin v → Fin d → ℝ) (Y : Fin n → Fin c → ℝ)
    (index : Fin n → ℕ) : ℝ × (Fin n → Fin c → ℝ) :=
  let temperature : ℝ := 0.1
  let cf : Fin v × Fin n → Fin d → ℝ := fun p => features p.2 p.1
  let adcM : Fin v × Fin n → Fin v × Fin n → ℝ := fun p q =>
    (∑ m, cf p m * cf q m) / temperature
  let logitsM : Fin v × Fin n → Fin v × Fin n → ℝ := fun p q =>
    adcM p q - Finset.univ.sup' ⟨p, Finset.mem_univ p⟩ (adcM p)
  let tp : Fin n → Fin c := targetPredict outputs Y
  let cnt : Fin c → ℕ := fun j => (Finset.univ.filter fun l : Fin n => tp l = j).card
  -- the loop of lines 188-195, accumulated per entry (i, l)
  let maskL : Fin n → Fin n → ℝ := fun i l =>
    ∑ j : Fin c,
      if Y i j = 1 ∧ tp l = j ∧ 0 < cnt j then confidence i j / cnt j else 0
  let lmBig : Fin v × Fin n → Fin v × Fin n → ℝ := fun p q => if q = p then 0 else 1
  let maskM : Fin v × Fin n → Fin v × Fin n → ℝ := fun p q =>
    maskL p.2 q.2 * lmBig p q
  let logProbM : Fin v × Fin n → Fin v × Fin n → ℝ := fun p q =>
    logitsM p q - Real.log (∑ r, lmBig p r * Real.exp (logitsM p r))
  let meanLogProbPos : Fin v × Fin n → ℝ := fun p => ∑ q, maskM p q * logProbM p q
  let lossCon : ℝ :=
    (∑ p, -(temperature / base_temperature) * meanLogProbPos p) / (v * n)
  (lossCon, newTarget outputs Y)

end ConLoss

namespace PaPiLoss

/-- `torch.softmax(cls_out_1, dim=1)` (line 226). -/
noncomputable def softmaxRow {n c : ℕ} (z : Fin n → Fin c → ℝ) (i : Fin n)
    (j : Fin c) : ℝ :=
  Real.exp (z i j) / ∑ m, Real.exp (z i m)

/-- `torch.log_softmax(torch.div(z, 0.3), dim=1)` (lines 228-229): the
tempered log-softmax of a prototype branch. -/
noncomputable def temperedLogSoftmax {n c : ℕ} (z : Fin n → Fin c → ℝ) (i : Fin n)
    (j : Fin c) : ℝ :=
  z i j / 0.3 - Real.log (∑ m, Real.exp (z i m / 0.3))

/-- `confidence[ix, :]` (lines 231-232): the confidence rows selected by an
index map (detaching is the identity on values). -/
def selectRows {N n c : ℕ} (confidence : Fin N → Fin c → ℝ)
    (ix : Fin n → Fin N) : Fin n → Fin c → ℝ :=
  fun i j => confidence (ix i) j

/-- `PaPiLoss.forward` (lines 225-245): returns `(cls_loss_1, sim_loss_2)`.
`sim_criterion` is the externally supplied divergence functional. -/
noncomputable def forward {n c N : ℕ}
    (cls_out_1 logits_prot_1_mix logits_prot_2_mix : Fin n → Fin c → ℝ)
    (confidence : Fin N → Fin c → ℝ) (idx_rp : Fin n → Fin n) (Lambda : ℝ)
    (index : Fin n → Fin N)
    (sim_criterion : (Fin n → Fin c → ℝ) → (Fin n → Fin c → ℝ) → ℝ) : ℝ × ℝ :=
  let y1 := softmaxRow cls_out_1
  let l1 := temperedLogSoftmax logits_prot_1_mix
  let l2 := temperedLogSoftmax logits_prot_2_mix
  let t1 := selectRows confidence index
  let t1rp := selectRows confidence fun i => index (idx_rp i)
  let clsLoss : ℝ := -((∑ i, ∑ j, t1 i j * Real.log (y1 i j)) / n)
  let s1 := Lambda * sim_criterion l1 t1 + (1 - Lambda) * sim_criterion l1 t1rp
  let s2 := Lambda * sim_criterion l2 t1 + (1 - Lambda) * sim_criterion l2 t1rp
  (clsLoss, s1 + s2)

/-- The similarity loss exactly as the specification words it: the
Lambda-weighted convex combination of the criterion applied to each
prototype branch's tempered log-softmax against the detached confidence
rows for the batch and for the `idx_rp`-permuted pairing, summed over both
branches. -/
noncomputable def simLossSpec {n c N : ℕ}
    (logits_prot_1_mix logits_prot_2_mix : Fin n → Fin c → ℝ)
    (confidence : Fin N → Fin c → ℝ) (idx_rp : Fin n → Fin n) (Lambda : ℝ)
    (index : Fin n → Fin N)
    (sim_criterion : (Fin n → Fin c → ℝ) → (Fin n → Fin c → ℝ) → ℝ) : ℝ :=
  (Lambda * sim_criterion (temperedLogSoftmax logits_prot_1_mix)
      (selectRows confidence index) +
    (1 - Lambda) * sim_criterion (temperedLogSoftmax logits_prot_1_mix)
      (selectRows confidence fun i => index (idx_rp i))) +
  (Lambda * sim_criterion (temperedLogSoftmax logits_prot_2_mix)
      (selectRows confidence index) +
    (1 - Lambda) * sim_criterion (temperedLogSoftmax logits_prot_2_mix)
      (selectRows confidence fun i => index (idx_rp i)))

end PaPiLoss

/-! ### Theorems -/

/-- With the default identity mask every entry of `positives_mask` vanishes
(`eye * (1 - eye) = 0`), so no row passes the `num_positives_per_row > 0`
filter. -/
theorem InfoNCE2.posRows_eyeMask (n : ℕ) :
    InfoNCE2.posRows (InfoNCE2.eyeMask n) = ∅ := by
  unfold InfoNCE2.posRows
  rw [Finset.filter_eq_empty_iff]
  intro i _
  have hz : InfoNCE2.numPositives (InfoNCE2.eyeMask n) i = 0 := by
    unfold InfoNCE2.numPositives
    apply Finset.sum_eq_zero
    intro j _
    unfold InfoNCE2.positivesMask InfoNCE2.eyeMask InfoNCE2.logitsMaskE
    by_cases h : i = j <;> simp [h]
  rw [hz]
  simp

/-- With the default identity mask the kept-row selection is empty, so the
final `.mean()` runs over an empty tensor and the result is NaN (`none`). -/
theorem InfoNCE2.meanLoss_eyeMask {n d : ℕ} (t : ℝ) (s : Bool)
    (features : Fin n → Fin d → ℝ) :
    InfoNCE2.meanLoss t s features (InfoNCE2.eyeMask n) = none := by
  unfold InfoNCE2.meanLoss
  rw [dif_neg]
  rw [InfoNCE2.posRows_eyeMask]
  exact Finset.not_nonempty_empty

/-- With the identity mask both denominator summands are nonnegative
(`1 - eye` and `eye * (1 - eye)` have entries in {0, 1} and the exponentials
are positive), so the NaN guard cannot fire on the default path. -/
theorem InfoNCE2.denominator_eyeMask_nonneg {n d : ℕ} (t : ℝ)
    (features : Fin n → Fin d → ℝ) (i : Fin n) :
    0 ≤ InfoNCE2.denominator t features (InfoNCE2.eyeMask n) i := by
  unfold InfoNCE2.denominator
  apply add_nonneg
  · apply Finset.sum_nonneg
    intro j _
    apply mul_nonneg (le_of_lt (Real.exp_pos _))
    unfold InfoNCE2.eyeMask
    by_cases h : i = j <;> simp [h]
  · apply Finset.sum_nonneg
    intro j _
    apply mul_nonneg (le_of_lt (Real.exp_pos _))
    unfold InfoNCE2.positivesMask InfoNCE2.eyeMask InfoNCE2.logitsMaskE
    by_cases h : i = j <;> simp [h]

/-- On the default identity-mask path the NaN guard does not fire and the
filtered mean is empty: the result is `ok none`. -/
theorem InfoNCE2.maskedLoss_eyeMask {n d : ℕ} (t : ℝ) (s : Bool)
    (features : Fin n → Fin d → ℝ) :
    InfoNCE2.maskedLoss t s features (InfoNCE2.eyeMask n) = Except.ok none := by
  have hg : ¬ ∃ i, InfoNCE2.denominator t features (InfoNCE2.eyeMask n) i
      + 1e-12 < 0 := by
    push_neg
    intro i
    have h := InfoNCE2.denominator_eyeMask_nonneg t features i
    have he : (0 : ℝ) ≤ 1e-12 := by norm_num
    linarith
  unfold InfoNCE2.maskedLoss
  rw [if_neg hg, InfoNCE2.meanLoss_eyeMask]

/-- Claim C1, counterexample: for a batch of two orthogonal unit vectors with
temperature 1 and neither labels nor mask, `InfoNCE2.forward` does not return
the loss `log 2` — the degenerate default mask leaves every row without
positives and the result is the empty mean (NaN, modelled `none`). -/
theorem infoNCE2_default_not_log_two :
    InfoNCE2.forward (n := 2) (d := 2) 1 false
        (fun i j => if i = j then 1 else 0) none none ≠
      Except.ok (some (Real.log 2)) := by
  have h : InfoNCE2.forward (n := 2) (d := 2) 1 false
      (fun i j => if i = j then 1 else 0) none none = Except.ok none := by
    show InfoNCE2.maskedLoss 1 false _ (InfoNCE2.eyeMask 2) = _
    rw [InfoNCE2.maskedLoss_eyeMask]
  rw [h]
  simp

/-- Claim C1, amended: when `InfoNCE2` is called with neither labels nor
mask, the default mask is the identity; self-pair exclusion then removes
every positive, every row fails the `num_positives_per_row > 0` filter, and
the returned loss is the mean of an empty selection — NaN (`none`), not
`log 2`, for every batch. -/
theorem infoNCE2_default_mask_loss_undefined :
    ∀ (n d : ℕ) (t : ℝ) (s : Bool) (features : Fin n → Fin d → ℝ),
      InfoNCE2.forward t s features none none = Except.ok none := by
  intro n d t s features
  show InfoNCE2.maskedLoss t s features (InfoNCE2.eyeMask n) = _
  rw [InfoNCE2.maskedLoss_eyeMask]

/-- Claim C4: `InfoNCE2.forward` rejects, with the source's explicit error
messages and before any similarity or logit computation, every call
supplying both `labels` and `mask`, and every call whose label list length
differs from the feature batch size. -/
theorem infoNCE2_rejects_invalid_arguments :
    (∀ (n d : ℕ) (t : ℝ) (s : Bool) (features : Fin n → Fin d → ℝ)
        (ls : List ℤ) (m : Fin n → Fin n → ℝ),
        InfoNCE2.forward t s features (some ls) (some m) =
          Except.error "Cannot define both `labels` and `mask`") ∧
      ∀ (n d : ℕ) (t : ℝ) (s : Bool) (features : Fin n → Fin d → ℝ)
        (ls : List ℤ),
        ls.length ≠ n →
        InfoNCE2.forward t s features (some ls) none =
          Except.error "Num of labels does not match num of features" := by
  constructor
  · intro n d t s features ls m
    rfl
  · intro n d t s features ls h
    show (if hl : ls.length = n then
        InfoNCE2.maskedLoss t s features (InfoNCE2.labelsMask ls hl)
      else Except.error "Num of labels does not match num of features") =
      Except.error "Num of labels does not match num of features"
    rw [dif_neg h]

/-- Witness for C4 at concrete inputs: batch size 1, label list of length 2. -/
theorem infoNCE2_rejects_invalid_arguments_witness :
    InfoNCE2.forward (n := 1) (d := 1) 1 false (fun _ _ => 0)
        (some [0, 1]) (some fun _ _ => 0) =
      Except.error "Cannot define both `labels` and `mask`" ∧
    InfoNCE2.forward (n := 1) (d := 1) 1 false (fun _ _ => 0)
        (some [0, 1]) none =
      Except.error "Num of labels does not match num of features" :=
  ⟨infoNCE2_rejects_invalid_arguments.1 1 1 1 false _ [0, 1] _,
    infoNCE2_rejects_invalid_arguments.2 1 1 1 false _ [0, 1] (by decide)⟩

/-- Claim C5: zero-positive rows are handled by silent exclusion, never by
an error.  Whenever the supplied mask keeps every row's
`denominator + 1e-12` positive (every `log_probs` entry real, so the
line-68 NaN guard is provably silent), the call returns without error the
mean of the per-row losses over exactly the rows whose positive mask (after
self-pair exclusion) has positive sum — zero-positive rows contribute to
neither the numerator nor the row count, and an empty selection yields NaN
(`none`), not an error.  The only error the loss body can raise is the NaN
guard, whose condition concerns the denominators and not the count of
positives. -/
theorem infoNCE2_zero_positive_rows_excluded :
    (∀ (n d : ℕ) (t : ℝ) (s : Bool) (features : Fin n → Fin d → ℝ)
        (m : Fin n → Fin n → ℝ),
        (∀ i, 0 < InfoNCE2.denominator t features m i + 1e-12) →
        InfoNCE2.forward t s features none (some m) =
          Except.ok
            (if h : (InfoNCE2.posRows m).Nonempty then
              some ((∑ i ∈ InfoNCE2.posRows m,
                  InfoNCE2.rowLoss t s features m i) /
                (InfoNCE2.posRows m).card)
            else none)) ∧
      ∀ (n d : ℕ) (t : ℝ) (s : Bool) (features : Fin n → Fin d → ℝ)
        (m : Fin n → Fin n → ℝ),
        (∃ i, InfoNCE2.denominator t features m i + 1e-12 < 0) →
        InfoNCE2.forward t s features none (some m) =
          Except.error "Log_prob has nan!" := by
  constructor
  · intro n d t s features m hden
    show InfoNCE2.maskedLoss t s features m = _
    have hg : ¬ ∃ i, InfoNCE2.denominator t features m i + 1e-12 < 0 := by
      push_neg
      intro i
      exact le_of_lt (hden i)
    unfold InfoNCE2.maskedLoss
    rw [if_neg hg]
    rfl
  · intro n d t s features m hneg
    show InfoNCE2.maskedLoss t s features m = _
    unfold InfoNCE2.maskedLoss
    rw [if_pos hneg]

/-- Witness for C5 at concrete inputs (batch size 1): the zero mask has
denominator 1 — no error, empty positive-row selection, loss `none` — while
the mask `[[3]]` drives the denominator to −2 and the NaN guard raises. -/
theorem infoNCE2_zero_positive_rows_excluded_witness :
    InfoNCE2.forward (n := 1) (d := 1) 1 false (fun _ _ => 0) none
        (some fun _ _ => 0) =
      Except.ok
        (if h : (InfoNCE2.posRows (n := 1) fun _ _ => (0 : ℝ)).Nonempty then
          some ((∑ i ∈ InfoNCE2.posRows (n := 1) fun _ _ => (0 : ℝ),
              InfoNCE2.rowLoss (d := 1) 1 false (fun _ _ => 0)
                (fun _ _ => 0) i) /
            (InfoNCE2.posRows (n := 1) fun _ _ => (0 : ℝ)).card)
        else none) ∧
    InfoNCE2.forward (n := 1) (d := 1) 1 false (fun _ _ => 0) none
        (some fun _ _ => 3) =
      Except.error "Log_prob has nan!" :=
  ⟨infoNCE2_zero_positive_rows_excluded.1 1 1 1 false _ _ (by
      intro i
      simp [InfoNCE2.denominator, InfoNCE2.logits, InfoNCE2.adc,
        InfoNCE2.positivesMask, InfoNCE2.logitsMaskE, Fin.sum_univ_one,
        Finset.univ_unique, Finset.sup'_singleton]
      norm_num),
    infoNCE2_zero_positive_rows_excluded.2 1 1 1 false _ _ ⟨0, by
      simp [InfoNCE2.denominator, InfoNCE2.logits, InfoNCE2.adc,
        InfoNCE2.positivesMask, InfoNCE2.logitsMaskE, Fin.sum_univ_one,
        Finset.univ_unique, Finset.sup'_singleton]
      norm_num⟩⟩

/-- Permuting both input batches by the same permutation permutes the
concatenated 2n-row tensor by the block permutation `p ⊕ p`. -/
theorem InfoNCE.catz_comp_perm {n d : ℕ} (z_i z_j : Fin n → Fin d → ℝ)
    (p : Equiv.Perm (Fin n)) (a : Fin n ⊕ Fin n) :
    InfoNCE.catz (fun m => z_i (p m)) (fun m => z_j (p m)) a =
      InfoNCE.catz z_i z_j (Equiv.sumCongr p p a) := by
  cases a <;> rfl

/-- Claim C6: `InfoNCE.forward` is invariant under simultaneously permuting
the sample order of `z_i` and `z_j` by the same permutation. -/
theorem infoNCE_perm_invariant :
    ∀ (n d : ℕ) (t : ℝ) (z_i z_j : Fin n → Fin d → ℝ) (p : Equiv.Perm (Fin n)),
      InfoNCE.forward t (fun m => z_i (p m)) (fun m => z_j (p m)) =
        InfoNCE.forward t z_i z_j := by
  intro n d t z_i z_j p
  unfold InfoNCE.forward
  congr 1
  refine Fintype.sum_equiv (Equiv.sumCongr p p) _ _ fun a => ?_
  have hsim : ∀ b, InfoNCE.similarity (fun m => z_i (p m)) (fun m => z_j (p m)) a b
      = InfoNCE.similarity z_i z_j (Equiv.sumCongr p p a) (Equiv.sumCongr p p b) := by
    intro b
    unfold InfoNCE.similarity
    rw [InfoNCE.catz_comp_perm, InfoNCE.catz_comp_perm]
  have hpos : InfoNCE.positives (fun m => z_i (p m)) (fun m => z_j (p m)) a =
      InfoNCE.positives z_i z_j (Equiv.sumCongr p p a) := by
    cases a with
    | inl k =>
        show InfoNCE.similarity (fun m => z_i (p m)) (fun m => z_j (p m))
            (Sum.inl k) (Sum.inr k) = _
        rw [hsim (Sum.inr k)]
        simp [InfoNCE.positives, Equiv.sumCongr_apply]
    | inr k =>
        show InfoNCE.similarity (fun m => z_i (p m)) (fun m => z_j (p m))
            (Sum.inr k) (Sum.inl k) = _
        rw [hsim (Sum.inl k)]
        simp [InfoNCE.positives, Equiv.sumCongr_apply]
  have hden : InfoNCE.denomSum t (fun m => z_i (p m)) (fun m => z_j (p m)) a =
      InfoNCE.denomSum t z_i z_j (Equiv.sumCongr p p a) := by
    unfold InfoNCE.denomSum
    refine Fintype.sum_equiv (Equiv.sumCongr p p) _ _ fun b => ?_
    rw [hsim b]
    congr 1
    by_cases hb : b = a
    · simp [hb]
    · rw [if_neg hb, if_neg fun hmap => hb ((Equiv.sumCongr p p).injective hmap)]
  rw [hpos, hden]

/-- Claim C7: in the supervised branch of `SupConLoss`, a weight vector of
all ones yields exactly the unweighted mean of the per-anchor losses. -/
theorem supConLoss_unit_weights_eq_unweighted :
    ∀ (b k d : ℕ) (t bt : ℝ) (features : Fin (b + k) → Fin d → ℝ)
      (mask : Fin b → Fin (b + k) → ℝ),
      SupConLoss.forward t bt features mask (some fun _ => 1) =
        SupConLoss.forward t bt features mask none := by
  intro b k d t bt features mask
  unfold SupConLoss.forward
  simp [mul_one]

/-- Claim C9: `SupConLoss` (supervised branch) has no zero-positive-row
guard: there is an input whose mask row sums to zero after self-pair
exclusion, where the per-anchor mean log-probability divides by that zero
sum and the returned loss is not a real number (`none`, non-finite in
float arithmetic) — unlike `InfoNCE2`, which filters such rows out. -/
theorem supConLoss_zero_mask_row_unguarded :
    ∃ (features : Fin (1 + 1) → Fin 1 → ℝ) (mask : Fin 1 → Fin (1 + 1) → ℝ),
      SupConLoss.maskSum mask 0 = 0 ∧
        SupConLoss.forward 0.07 0.07 features mask none = none := by
  refine ⟨fun _ _ => 0, fun _ _ => 0, ?_, ?_⟩
  · unfold SupConLoss.maskSum
    simp
  · unfold SupConLoss.forward
    rw [if_neg]
    push_neg
    intro _
    refine ⟨0, ?_⟩
    unfold SupConLoss.maskSum
    simp

/-- Claim C2: whenever the candidate matrix `Y` is 0/1-valued and every row
has a nonzero entry, every row of the refined target returned by
`ConLoss.forward` sums to exactly 1: the target is `Y` times the detached
softmax of the outputs, renormalized row-wise, and the softmax gives every
candidate class positive probability. -/
theorem conLoss_newTarget_rows_sum_one {n v c d e : ℕ} [NeZero c] (bt : ℝ)
    (confidence : Fin n → Fin c → ℝ) (outputs : Fin (n + e) → Fin c → ℝ)
    (features : Fin n → Fin v → Fin d → ℝ) (Y : Fin n → Fin c → ℝ)
    (index : Fin n → ℕ)
    (hY : ∀ i j, Y i j = 0 ∨ Y i j = 1)
    (hrow : ∀ i, ∃ j, Y i j ≠ 0) (i : Fin n) :
    ∑ j, (ConLoss.forward bt confidence outputs features Y index).2 i j = 1 := by
  show ∑ j, ConLoss.newTarget outputs Y i j = 1
  unfold ConLoss.newTarget
  rw [← Finset.sum_div]
  apply div_self
  apply ne_of_gt
  obtain ⟨j0, hj0⟩ := hrow i
  have hY1 : Y i j0 = 1 := (hY i j0).resolve_left hj0
  have hsm : ∀ m : Fin c, 0 < ConLoss.outputSm outputs i m := by
    intro m
    unfold ConLoss.outputSm
    exact div_pos (Real.exp_pos _)
      (Finset.sum_pos (fun q _ => Real.exp_pos _) ⟨m, Finset.mem_univ _⟩)
  apply Finset.sum_pos'
  · intro m _
    rcases hY i m with h0 | h1
    · rw [h0]
      simp
    · rw [h1, one_mul]
      exact le_of_lt (hsm m)
  · exact ⟨j0, Finset.mem_univ _, by rw [hY1, one_mul]; exact hsm j0⟩

/-- Witness for C2: a concrete one-sample, one-class call in which the row
of the returned refined target sums to 1. -/
theorem conLoss_newTarget_rows_sum_one_witness :
    ∑ j, (ConLoss.forward (n := 1) (v := 1) (c := 1) (d := 1) (e := 0) 0.07
        (fun _ _ => 1) (fun _ _ => 0) (fun _ _ _ => 0) (fun _ _ => 1)
        fun _ => 0).2 0 j = 1 :=
  conLoss_newTarget_rows_sum_one 0.07 _ _ _ _ _
    (fun _ _ => Or.inr rfl) (fun _ => ⟨0, one_ne_zero⟩) 0

/-- Claim C3: feeding the refined target returned by `ConLoss.forward` back
in as the confidence argument of a second call with identical remaining
inputs returns the same refined target — a fixed point.  The refinement is
built from `outputs` and `Y` alone, so this holds whenever the stated guard
(each sample's predicted label matches the confidence-selected label) does,
and indeed unconditionally. -/
theorem conLoss_confidence_roundtrip_fixed_point {n v c d e : ℕ} [NeZero c]
    (bt : ℝ) (confidence : Fin n → Fin c → ℝ)
    (outputs : Fin (n + e) → Fin c → ℝ)
    (features : Fin n → Fin v → Fin d → ℝ) (Y : Fin n → Fin c → ℝ)
    (index : Fin n → ℕ)
    (hmatch : ∀ i, ConLoss.targetPredict outputs Y i =
      ConLoss.confSelected
        ((ConLoss.forward bt confidence outputs features Y index).2) i) :
    (ConLoss.forward bt
        ((ConLoss.forward bt confidence outputs features Y index).2)
        outputs features Y index).2 =
      (ConLoss.forward bt confidence outputs features Y index).2 :=
  rfl

/-- Witness for C3: a concrete one-sample, one-class call; with a single
class the predicted label trivially matches the confidence-selected one. -/
theorem conLoss_confidence_roundtrip_fixed_point_witness :
    (ConLoss.forward (n := 1) (v := 1) (c := 1) (d := 1) (e := 0) 0.07
        ((ConLoss.forward (n := 1) (v := 1) (c := 1) (d := 1) (e := 0) 0.07
            (fun _ _ => 1) (fun _ _ => 0) (fun _ _ _ => 0) (fun _ _ => 1)
            fun _ => 0).2)
        (fun _ _ => 0) (fun _ _ _ => 0) (fun _ _ => 1) fun _ => 0).2 =
      (ConLoss.forward (n := 1) (v := 1) (c := 1) (d := 1) (e := 0) 0.07
          (fun _ _ => 1) (fun _ _ => 0) (fun _ _ _ => 0) (fun _ _ => 1)
          fun _ => 0).2 :=
  conLoss_confidence_roundtrip_fixed_point 0.07 _ _ _ _ _
    fun _ => Subsingleton.elim _ _

/-- Claim C10: the refined target returned by `ConLoss.forward` does not
depend on the confidence argument: two calls differing only in confidence
return identical `new_target` tensors, since the refinement uses only `Y`
and the detached softmax of the outputs. -/
theorem conLoss_newTarget_independent_of_confidence {n v c d e : ℕ}
    [NeZero c] (bt : ℝ) (conf1 conf2 : Fin n → Fin c → ℝ)
    (outputs : Fin (n + e) → Fin c → ℝ)
    (features : Fin n → Fin v → Fin d → ℝ) (Y : Fin n → Fin c → ℝ)
    (index : Fin n → ℕ) :
    (ConLoss.forward bt conf1 outputs features Y index).2 =
      (ConLoss.forward bt conf2 outputs features Y index).2 :=
  rfl

/-- Witness for C10 at concrete inputs with two different confidences. -/
theorem conLoss_newTarget_independent_of_confidence_witness :
    (ConLoss.forward (n := 1) (v := 1) (c := 1) (d := 1) (e := 0) 0.07
        (fun _ _ => 0) (fun _ _ => 0) (fun _ _ _ => 0) (fun _ _ => 1)
        fun _ => 0).2 =
      (ConLoss.forward (n := 1) (v := 1) (c := 1) (d := 1) (e := 0) 0.07
          (fun _ _ => 1) (fun _ _ => 0) (fun _ _ _ => 0) (fun _ _ => 1)
          fun _ => 0).2 :=
  conLoss_newTarget_independent_of_confidence 0.07 _ _ _ _ _ _

/-- Claim C8: the second output of `PaPiLoss.forward` is exactly the
specification's similarity loss: the sum over both prototype branches of the
Lambda-weighted convex combination of the criterion applied to the branch's
tempered log-softmax against the confidence rows for the batch indices and
against the confidence rows for the `idx_rp`-permuted indices. -/
theorem paPiLoss_sim_loss_formula :
    ∀ (n c N : ℕ) (cls_out_1 p1 p2 : Fin n → Fin c → ℝ)
      (confidence : Fin N → Fin c → ℝ) (idx_rp : Fin n → Fin n) (Lambda : ℝ)
      (index : Fin n → Fin N)
      (crit : (Fin n → Fin c → ℝ) → (Fin n → Fin c → ℝ) → ℝ),
      (PaPiLoss.forward cls_out_1 p1 p2 confidence idx_rp Lambda index crit).2 =
        PaPiLoss.simLossSpec p1 p2 confidence idx_rp Lambda index crit :=
  fun _ _ _ _ _ _ _ _ _ _ _ => rfl
